import Mathlib

/-!
# Verification of napari key-binding selection logic and the installer build script

Shallow embedding of two source files:

* `napari/layers/points/_points_key_bindings.py` — the selection actions
  `select_all_in_slice` and `select_all_data` over a points layer.
* `bundle_conda.py` — version resolution (`_get_version`), derived fields
  (output filename, definition version, extra-env name), license-zip entry
  generation (`licenses`) and the cleanup logic of `main`.

Python sets of integer indices become `Finset ℕ`; Python strings become
Lean `String` / `List Char`; exceptions become `Except`; the Python value
`None` returned by a function becomes `Option.none`.
-/

namespace Napari

/-- State of a `Points` layer, restricted to the fields the key-binding
actions read and write:

* `numPoints` — `layer.data.shape[0]` (also `len(layer.data)`);
* `selected_data` — `layer.selected_data`, a set of integer indices;
* `indicesView` — `layer._indices_view`, the array of layer indices in view
  order;
* `viewLen` — `len(layer._view_data)`, the number of points actually
  rendered in the current slice. -/
structure PointsLayer where
  numPoints : ℕ
  selected_data : Finset ℕ
  indicesView : List ℕ
  viewLen : ℕ
deriving DecidableEq

/-- `set(layer._indices_view[: len(layer._view_data)])` — the set of indices
of the points visible in the current slice. -/
def visibleIndices (layer : PointsLayer) : Finset ℕ :=
  (layer.indicesView.take layer.viewLen).toFinset

/-- Embedding of `select_all_in_slice` (lines 72–96 of
`_points_key_bindings.py`).  `new_selected` is the visible index set; if
`new_selected & layer.selected_data == new_selected` the visible points are
removed from the selection, otherwise they are added.  The `show_info`
notification has no effect on layer state and is not modelled. -/
def select_all_in_slice (layer : PointsLayer) : PointsLayer :=
  let new_selected := visibleIndices layer
  if new_selected ∩ layer.selected_data = new_selected then
    { layer with selected_data := layer.selected_data \ new_selected }
  else
    { layer with selected_data := layer.selected_data ∪ new_selected }

/-- Embedding of `select_all_data` (lines 102–122 of
`_points_key_bindings.py`).  If `len(layer.selected_data) == len(layer.data)`
the selection is cleared, otherwise it becomes
`set(range(layer.data.shape[0]))`.  The notification is not modelled. -/
def select_all_data (layer : PointsLayer) : PointsLayer :=
  if layer.selected_data.card = layer.numPoints then
    { layer with selected_data := ∅ }
  else
    { layer with selected_data := Finset.range layer.numPoints }

end Napari

namespace BundleConda

/-- Python exceptions that the modelled fragments of `bundle_conda.py` can
raise. -/
inductive PyError where
  /-- `FileNotFoundError` from `open(...)` on a missing file. -/
  | fileNotFound : PyError
  /-- `IndexError` from `package_id.split("::", 1)[1]` when the separator
  is absent. -/
  | indexError : PyError
deriving DecidableEq, Repr

/-- Python `\s` on the ASCII range: `[ \t\n\r\f\v]`.  (The Unicode
whitespace characters Python additionally accepts do not occur in any input
considered here.) -/
def isPySpace (c : Char) : Bool :=
  c = ' ' ∨ c = '\t' ∨ c = '\n' ∨ c = '\r' ∨ c = '\x0b' ∨ c = '\x0c'

/-- Match a literal character sequence at the head of the input, returning
the rest of the input on success. -/
def stripLit : List Char → List Char → Option (List Char)
  | [], cs => some cs
  | _ :: _, [] => none
  | l :: ls, c :: cs => if c = l then stripLit ls cs else none

/-- Match the regex fragment `\s?x` for a literal `x` at the head of the
input (greedy: one whitespace character is consumed if `x` follows it). -/
def matchOptSpaceThen (target : Char) : List Char → Option (List Char)
  | [] => none
  | [c] => if c = target then some [] else none
  | c :: d :: rest =>
    if isPySpace c ∧ d = target then some rest
    else if c = target then some (d :: rest) else none

/-- Attempt the regex `version\s?=\s?\'([^\']+)` at the head of the input,
returning the capture group on success. -/
def matchVersionAt (cs : List Char) : Option (List Char) :=
  match stripLit "version".toList cs with
  | none => none
  | some r1 =>
    match matchOptSpaceThen '=' r1 with
    | none => none
    | some r2 =>
      match matchOptSpaceThen '\'' r2 with
      | none => none
      | some r3 =>
        let cap := r3.takeWhile (fun c => c ≠ '\'')
        if cap.isEmpty then none else some cap

/-- `re.search(r'version\s?=\s?\'([^\']+)', text)`: try the pattern at each
position from the left, returning the capture group of the first match. -/
def versionSearch : List Char → Option (List Char)
  | [] => none
  | c :: rest =>
    match matchVersionAt (c :: rest) with
    | some cap => some cap
    | none => versionSearch rest

/-- `s.split('+')[0]` for a nonempty-split use: the prefix of the string up
to (excluding) the first `'+'`. -/
def splitPlusHead (cs : List Char) : List Char :=
  cs.takeWhile (fun c => c ≠ '+')

/-- Embedding of `_get_version` (lines 82–89 of `bundle_conda.py`).

* `env` is `os.environ.get("CONSTRUCTOR_NAPARI_VERSION")`;
* `versionFile` is the content of `napari/_version.py`, or `none` when the
  file is missing (in which case `open` raises `FileNotFoundError`).

When the environment variable is set its value is returned verbatim.
Otherwise the file is opened and searched; on a match the capture group is
returned with everything from the first `'+'` stripped; on no match the
Python function falls off the end and returns `None`, modelled as
`.ok none`. -/
def _get_version (env : Option String) (versionFile : Option String) :
    Except PyError (Option String) :=
  match env with
  | some v => .ok (some v)
  | none =>
    match versionFile with
    | none => .error .fileNotFound
    | some content =>
      match versionSearch content.toList with
      | some cap => .ok (some (String.mk (splitPlusHead cap)))
      | none => .ok none

/-- `OUTPUT_FILENAME = f"{APP}-{_get_version()}-{OS}-{ARCH}.{EXT}"`
(line 92), as a function of its inputs. -/
def output_filename (app version os arch ext : String) : String :=
  app ++ "-" ++ version ++ "-" ++ os ++ "-" ++ arch ++ "." ++ ext

/-- The `f"napari-{version}"` extra-environment name used in the
`extra_envs` field of the constructor definitions (line 217). -/
def extra_env_name (version : String) : String :=
  "napari-" ++ version

/-- The version-derived fields of the constructor `definitions` mapping
that `_constructor` assembles: the installer filename, the `version` field
and the extra-env name (lines 92, 209, 212, 217). -/
structure DerivedFields where
  installer_filename : String
  definition_version : String
  extra_env : String
deriving DecidableEq, Repr

/-- How `_constructor` derives the version-bearing fields from the resolved
version string. -/
def derivedFields (app version os arch ext : String) : DerivedFields :=
  { installer_filename := output_filename app version os arch ext
    definition_version := version
    extra_env := extra_env_name version }

/-- `package_id.split("::", 1)[1]`: the part of the string after the first
occurrence of `"::"`.  When the separator does not occur, `split` returns a
one-element list and the `[1]` subscript raises `IndexError`, modelled as
`none`. -/
def splitColonsTail : List Char → Option (List Char)
  | [] => none
  | ':' :: ':' :: rest => some rest
  | _ :: rest => splitColonsTail rest

/-- `license_type.replace(' ', '_')`. -/
def replaceSpace (s : String) : String :=
  String.mk (s.toList.map (fun c => if c = ' ' then '_' else c))

/-- The archive name computed for the `i`-th license file (1-based) of a
package/license-type pair:
`f"{package_name}.{license_type.replace(' ', '_')}.{i}.txt"`. -/
def arcname (packageName licenseType : String) (i : ℕ) : String :=
  packageName ++ "." ++ replaceSpace licenseType ++ "." ++ toString i ++ ".txt"

/-- The `_licenses` mapping of `info.json`: for each package id (in
insertion order), the mapping from license type to the list of license-file
paths.  Python `dict` iteration order is insertion order, so both mappings
are modelled as association lists. -/
abbrev LicensesInfo : Type :=
  List (String × List (String × List String))

/-- The zip entries produced by the two inner loops of `licenses` for one
package: one entry per license file, named by `arcname` with the 1-based
index within its license type (`enumerate(license_files, 1)`). -/
def packageEntries (packageName : String) :
    List (String × List String) → List String
  | [] => []
  | lt :: rest =>
    ((List.range lt.2.length).map fun j => arcname packageName lt.1 (j + 1))
      ++ packageEntries packageName rest

/-- The outer `for package_id, license_info in info["_licenses"].items()`
loop of `licenses`: for each package in order, resolve the package name
(raising `IndexError` when the id has no `"::"`) and emit its entries. -/
def licenseLoop : LicensesInfo → Except PyError (List String)
  | [] => .ok []
  | pkg :: rest =>
    match splitColonsTail pkg.1.toList with
    | none => .error .indexError
    | some nameChars =>
      match licenseLoop rest with
      | .error e => .error e
      | .ok es => .ok (packageEntries (String.mk nameChars) pkg.2 ++ es)

/-- Embedding of `licenses` (lines 329–354 of `bundle_conda.py`),
restricted to the archive entries it produces: `"info.json"` is written
first, then one entry per license file of each package.  A missing
`info.json` makes `open` raise before any entry is written, so this
function takes the already-parsed manifest.  Writing an entry is assumed to
succeed (the files listed in the manifest exist), so the model records the
sequence of entries added to the archive. -/
def licenses (info : LicensesInfo) : Except PyError (List String) :=
  match licenseLoop info with
  | .error e => .error e
  | .ok es => .ok ("info.json" :: es)

/-- The total number N of license-file paths in a manifest. -/
def totalLicenseFiles (info : LicensesInfo) : ℕ :=
  (info.map fun pkg => (pkg.2.map fun lt => lt.2.length).sum).sum

/-- The error with which the modelled `main` terminates. -/
inductive MainErr (ε : Type) where
  /-- `_constructor()` raised; the exception propagates out of the
  `try`/`finally` after cleanup runs. -/
  | buildFailed (e : ε) : MainErr ε
  /-- `assert Path(OUTPUT_FILENAME).exists()` failed. -/
  | assertionError : MainErr ε
deriving DecidableEq

/-- Outcome of the cleanup loop in `main`'s `finally` block: the files for
which `os.unlink` was attempted, in order, and the files whose deletion
raised `OSError` (each is logged with a `print` and the loop continues). -/
structure CleanupResult where
  attempted : List String
  logged : List String
deriving DecidableEq

/-- The `finally` block of `main` (lines 360–365): iterate over
`clean_these_files`, attempt `os.unlink(path)` on each, catching `OSError`
and printing a message.  `deleteOk f = false` means unlinking `f` raises
`OSError`.  Since every iteration catches its exception, the loop itself
never raises. -/
def runCleanup (deleteOk : String → Bool) : List String → CleanupResult
  | [] => ⟨[], []⟩
  | f :: fs =>
    let r := runCleanup deleteOk fs
    if deleteOk f then ⟨f :: r.attempted, r.logged⟩
    else ⟨f :: r.attempted, f :: r.logged⟩

/-- Embedding of `main` (lines 357–367): run the build inside
`try`/`finally`, so cleanup runs whether or not `_constructor` raised; then
assert that the output file exists and return its name.

* `buildResult` is the outcome of `_constructor()` (its exception type is
  abstract);
* `files` is `clean_these_files` at the time the `finally` block runs;
* `deleteOk` says which unlinks succeed;
* `outputExists` is `Path(OUTPUT_FILENAME).exists()`.

Returns `main`'s outcome together with the cleanup record. -/
def main {ε : Type} (buildResult : Except ε Unit) (files : List String)
    (deleteOk : String → Bool) (outputExists : Bool)
    (outputFilename : String) : Except (MainErr ε) String × CleanupResult :=
  let cleanup := runCleanup deleteOk files
  match buildResult with
  | .error e => (.error (.buildFailed e), cleanup)
  | .ok _ =>
    if outputExists then (.ok outputFilename, cleanup)
    else (.error .assertionError, cleanup)

end BundleConda

namespace Napari

/-! ## Helper lemmas about the selection actions -/

theorem select_all_in_slice_selected_data (layer : PointsLayer) :
    (select_all_in_slice layer).selected_data =
      if visibleIndices layer ∩ layer.selected_data = visibleIndices layer
      then layer.selected_data \ visibleIndices layer
      else layer.selected_data ∪ visibleIndices layer := by
  unfold select_all_in_slice
  by_cases h : visibleIndices layer ∩ layer.selected_data = visibleIndices layer <;>
    simp [h]

theorem visibleIndices_select_all_in_slice (layer : PointsLayer) :
    visibleIndices (select_all_in_slice layer) = visibleIndices layer := by
  by_cases h : visibleIndices layer ∩ layer.selected_data = visibleIndices layer
  · simp only [select_all_in_slice, if_pos h]; rfl
  · simp only [select_all_in_slice, if_neg h]; rfl

/-! ## Claim theorems about the selection actions -/

/-- Claim C3 (confirmed): `select_all_in_slice` computes the visible index
set `V`; when `V ∩ selected_data = V` (exact set equality) the new
selection is `selected_data \ V`, and otherwise it is
`selected_data ∪ V`. -/
theorem select_all_in_slice_branch_spec (layer : PointsLayer) :
    (visibleIndices layer ∩ layer.selected_data = visibleIndices layer →
      (select_all_in_slice layer).selected_data =
        layer.selected_data \ visibleIndices layer) ∧
    (visibleIndices layer ∩ layer.selected_data ≠ visibleIndices layer →
      (select_all_in_slice layer).selected_data =
        layer.selected_data ∪ visibleIndices layer) := by
  constructor <;> intro h <;> rw [select_all_in_slice_selected_data]
  · rw [if_pos h]
  · rw [if_neg h]

/-- Witness for C3: on the layer with points `{0, 1}` both selected and
only point `0` visible, the deselect branch applies. -/
theorem select_all_in_slice_branch_spec_witness :
    (select_all_in_slice (⟨2, {0, 1}, [0], 1⟩ : PointsLayer)).selected_data =
      (⟨2, {0, 1}, [0], 1⟩ : PointsLayer).selected_data \
        visibleIndices (⟨2, {0, 1}, [0], 1⟩ : PointsLayer) :=
  (select_all_in_slice_branch_spec ⟨2, {0, 1}, [0], 1⟩).1 (by decide)

/-- Claim C1 (counterexample): `select_all_in_slice` is not self-inverse.
With selection `{0}` and visible set `{0, 1}` (a strict partial overlap),
the first application selects `{0, 1}` and the second deselects everything,
leaving `∅` instead of the original `{0}`. -/
theorem select_all_in_slice_not_involutive :
    (select_all_in_slice (select_all_in_slice
        (⟨2, {0}, [0, 1], 2⟩ : PointsLayer))).selected_data ≠
      (⟨2, {0}, [0, 1], 2⟩ : PointsLayer).selected_data := by
  decide

/-- Claim C1 (amended): applying `select_all_in_slice` twice restores the
original `selected_data` provided the visible index set is a subset of the
original selection or disjoint from it (the property fails exactly on
strict partial overlap, as the counterexample shows). -/
theorem select_all_in_slice_twice_of_subset_or_disjoint (layer : PointsLayer)
    (h : visibleIndices layer ⊆ layer.selected_data ∨
      visibleIndices layer ∩ layer.selected_data = ∅) :
    (select_all_in_slice (select_all_in_slice layer)).selected_data =
      layer.selected_data := by
  rw [select_all_in_slice_selected_data,
    visibleIndices_select_all_in_slice, select_all_in_slice_selected_data]
  set V := visibleIndices layer with hVdef
  set S := layer.selected_data with hSdef
  rcases h with hsub | hdisj
  · rw [if_pos (Finset.inter_eq_left.mpr hsub)]
    by_cases h0 : V = ∅
    · rw [h0]; simp
    · have hne : V ∩ (S \ V) ≠ V := by
        rw [Finset.inter_sdiff_self]
        intro hc; exact h0 hc.symm
      rw [if_neg hne, Finset.sdiff_union_self_eq_union]
      exact Finset.union_eq_left.mpr hsub
  · by_cases h0 : V = ∅
    · rw [h0]; simp
    · have h1 : V ∩ S ≠ V := by
        rw [hdisj]; intro hc; exact h0 hc.symm
      rw [if_neg h1]
      have h2 : V ∩ (S ∪ V) = V :=
        Finset.inter_eq_left.mpr Finset.subset_union_right
      have hd : Disjoint S V := by
        rw [Finset.disjoint_iff_inter_eq_empty, Finset.inter_comm]
        exact hdisj
      rw [if_pos h2, Finset.union_sdiff_cancel_right hd]

/-- Witness for the amended C1: with selection `{0, 1, 2}` and visible set
`{1, 2} ⊆ {0, 1, 2}`, toggling twice restores the selection. -/
theorem select_all_in_slice_twice_witness :
    (select_all_in_slice (select_all_in_slice
        (⟨3, {0, 1, 2}, [1, 2], 2⟩ : PointsLayer))).selected_data =
      (⟨3, {0, 1, 2}, [1, 2], 2⟩ : PointsLayer).selected_data :=
  select_all_in_slice_twice_of_subset_or_disjoint
    ⟨3, {0, 1, 2}, [1, 2], 2⟩ (Or.inl (by decide))

/-- Claim C10 (confirmed): when the visible index set is empty,
`select_all_in_slice` takes the deselect branch and removing the empty set
leaves `selected_data` unchanged. -/
theorem select_all_in_slice_empty_view (layer : PointsLayer)
    (h : visibleIndices layer = ∅) :
    (select_all_in_slice layer).selected_data = layer.selected_data := by
  rw [select_all_in_slice_selected_data, h]
  simp

/-- Witness for C10: a layer whose view shows zero points
(`viewLen = 0`). -/
theorem select_all_in_slice_empty_view_witness :
    (select_all_in_slice (⟨3, {1}, [0, 1], 0⟩ : PointsLayer)).selected_data =
      (⟨3, {1}, [0, 1], 0⟩ : PointsLayer).selected_data :=
  select_all_in_slice_empty_view ⟨3, {1}, [0, 1], 0⟩ (by decide)

/-- Claim C4 (confirmed): under the invariant that `selected_data` only
holds indices of existing points, `select_all_data` clears the selection
when every point is selected, and otherwise selects the full index range
`{0, …, numPoints - 1}` regardless of visibility. -/
theorem select_all_data_spec (layer : PointsLayer)
    (hsub : layer.selected_data ⊆ Finset.range layer.numPoints) :
    (layer.selected_data = Finset.range layer.numPoints →
      (select_all_data layer).selected_data = ∅) ∧
    (layer.selected_data ≠ Finset.range layer.numPoints →
      (select_all_data layer).selected_data = Finset.range layer.numPoints) := by
  constructor
  · intro h
    have hc : layer.selected_data.card = layer.numPoints := by
      rw [h, Finset.card_range]
    simp only [select_all_data, if_pos hc]
  · intro h
    have hc : layer.selected_data.card ≠ layer.numPoints := by
      intro hcard
      apply h
      apply Finset.eq_of_subset_of_card_le hsub
      rw [Finset.card_range]
      exact le_of_eq hcard.symm
    simp only [select_all_data, if_neg hc]

/-- Witness for C4: a two-point layer with only point `0` selected gets the
full range `{0, 1}` selected. -/
theorem select_all_data_spec_witness :
    (select_all_data (⟨2, {0}, [], 0⟩ : PointsLayer)).selected_data =
      Finset.range (⟨2, {0}, [], 0⟩ : PointsLayer).numPoints :=
  (select_all_data_spec ⟨2, {0}, [], 0⟩ (by decide)).2 (by decide)

end Napari

namespace BundleConda

/-! ## Claim theorems about the build script -/

/-- Claim C5 (confirmed): with the override unset and a metadata file
containing `version = '1.2.3+abc'`, the resolved version is `"1.2.3"`: the
capture group is split on `'+'` and only the head kept. -/
theorem get_version_strips_local_suffix :
    _get_version none (some "version = '1.2.3+abc'") =
      Except.ok (some "1.2.3") := rfl

/-- Claim C6 (confirmed): whenever `CONSTRUCTOR_NAPARI_VERSION` is set,
`_get_version` returns its value and the metadata file — present or absent,
whatever its content — has no influence on the result. -/
theorem get_version_override_precedence (v : String) (file : Option String) :
    _get_version (some v) file = Except.ok (some v) := rfl

/-- Claim C9 (confirmed): a set override is returned verbatim — no suffix
stripping of any kind is applied to it — and it flows unchanged into the
output filename, the definitions `version` field and the extra-env name. -/
theorem get_version_override_verbatim (v : String) (file : Option String)
    (app os arch ext : String) :
    _get_version (some v) file = Except.ok (some v) ∧
    (derivedFields app v os arch ext).definition_version = v ∧
    (derivedFields app v os arch ext).installer_filename =
      app ++ "-" ++ v ++ "-" ++ os ++ "-" ++ arch ++ "." ++ ext ∧
    (derivedFields app v os arch ext).extra_env = "napari-" ++ v :=
  ⟨rfl, rfl, rfl, rfl⟩

/-- Claim C2 (counterexample): with the override unset and a metadata file
whose content matches nothing (`version: 1.2.3` uses a colon, so the
pattern `version\s?=\s?\'([^\']+)` fails), `_get_version` returns Python
`None` — it does not raise, so this path is not fatal. -/
theorem get_version_no_match_returns_none :
    _get_version none (some "version: 1.2.3") = Except.ok none := rfl

/-- Claim C2 (amended): on the no-override path, version resolution raises
only when the metadata file itself is missing (`FileNotFoundError` from
`open`); when the file exists but the pattern does not match,
`_get_version` returns `None` without aborting the run. -/
theorem get_version_fatal_only_on_missing_file (content : String)
    (h : versionSearch content.toList = none) :
    _get_version none (some content) = Except.ok none ∧
    _get_version none none = Except.error PyError.fileNotFound := by
  refine ⟨?_, rfl⟩
  simp only [_get_version, h]

/-- Witness for the amended C2: the one-character file `"x"` matches
nothing, and `_get_version` yields `None` rather than an error. -/
theorem get_version_fatal_only_on_missing_file_witness :
    _get_version none (some "x") = Except.ok none ∧
    _get_version none none = Except.error PyError.fileNotFound :=
  get_version_fatal_only_on_missing_file "x" rfl

theorem packageEntries_length (name : String)
    (linfo : List (String × List String)) :
    (packageEntries name linfo).length =
      (linfo.map fun lt => lt.2.length).sum := by
  induction linfo with
  | nil => rfl
  | cons lt rest ih => simp [packageEntries, ih]

theorem licenseLoop_length (info : LicensesInfo)
    (h : ∀ pkg ∈ info, (splitColonsTail pkg.1.toList).isSome) :
    ∃ es, licenseLoop info = Except.ok es ∧
      es.length = totalLicenseFiles info := by
  induction info with
  | nil => exact ⟨[], rfl, rfl⟩
  | cons pkg rest ih =>
    obtain ⟨es, hes, hlen⟩ := ih fun p hp => h p (List.mem_cons_of_mem _ hp)
    obtain ⟨nameChars, hname⟩ :=
      Option.isSome_iff_exists.mp (h pkg (List.mem_cons_self _ _))
    refine ⟨packageEntries (String.mk nameChars) pkg.2 ++ es, ?_, ?_⟩
    · simp only [licenseLoop, hname, hes]
    · rw [List.length_append, packageEntries_length, hlen]
      simp [totalLicenseFiles]

/-- Claim C7 (confirmed): for a manifest with N license-file paths spread
across its packages (each package id containing the `"::"` separator), the
archive produced by `licenses` has exactly N + 1 entries: one per license
file plus `info.json` itself. -/
theorem licenses_entry_count (info : LicensesInfo)
    (h : ∀ pkg ∈ info, (splitColonsTail pkg.1.toList).isSome) :
    ∃ entries, licenses info = Except.ok entries ∧
      entries.length = totalLicenseFiles info + 1 := by
  obtain ⟨es, hes, hlen⟩ := licenseLoop_length info h
  refine ⟨"info.json" :: es, ?_, ?_⟩
  · simp only [licenses, hes]
  · simp [hlen]

/-- Witness for C7: two packages with three license files in total yield a
four-entry archive. -/
theorem licenses_entry_count_witness :
    ∃ entries,
      licenses [("conda-forge::numpy", [("MIT", ["f1", "f2"])]),
          ("pkgs/main::scipy", [("BSD License", ["f3"])])] =
        Except.ok entries ∧
      entries.length =
        totalLicenseFiles [("conda-forge::numpy", [("MIT", ["f1", "f2"])]),
          ("pkgs/main::scipy", [("BSD License", ["f3"])])] + 1 :=
  licenses_entry_count
    [("conda-forge::numpy", [("MIT", ["f1", "f2"])]),
      ("pkgs/main::scipy", [("BSD License", ["f3"])])] (by decide)

theorem runCleanup_attempted (deleteOk : String → Bool)
    (files : List String) :
    (runCleanup deleteOk files).attempted = files := by
  induction files with
  | nil => rfl
  | cons f fs ih =>
    by_cases hf : deleteOk f <;> simp [runCleanup, hf, ih]

theorem runCleanup_logged (deleteOk : String → Bool) (files : List String) :
    (runCleanup deleteOk files).logged =
      files.filter fun f => !(deleteOk f) := by
  induction files with
  | nil => rfl
  | cons f fs ih =>
    by_cases hf : deleteOk f <;> simp [runCleanup, hf, ih, List.filter_cons]

/-- Claim C8 (confirmed): the `finally` block attempts to unlink every
registered file whether the build raised or succeeded; each failed deletion
is logged (and only those); and the run's outcome is exactly what it would
be if every deletion succeeded, so deletion failures never turn the run
fatal. -/
theorem main_cleanup_best_effort {ε : Type} (buildResult : Except ε Unit)
    (files : List String) (deleteOk : String → Bool) (outputExists : Bool)
    (outputFilename : String) :
    (main buildResult files deleteOk outputExists outputFilename).2.attempted
        = files ∧
    (main buildResult files deleteOk outputExists outputFilename).2.logged =
      (files.filter fun f => !(deleteOk f)) ∧
    (main buildResult files deleteOk outputExists outputFilename).1 =
      (main buildResult files (fun _ => true) outputExists outputFilename).1
    := by
  have h2 : ∀ d : String → Bool,
      (main buildResult files d outputExists outputFilename).2 =
        runCleanup d files := by
    intro d
    cases buildResult with
    | error e => rfl
    | ok u => cases outputExists <;> rfl
  refine ⟨?_, ?_, ?_⟩
  · rw [h2]; exact runCleanup_attempted deleteOk files
  · rw [h2]; exact runCleanup_logged deleteOk files
  · cases buildResult with
    | error e => rfl
    | ok u => cases outputExists <;> rfl

end BundleConda
